import Mathlib

/-!
# go-airtable-api: the album façade over a remote table

A shallow embedding of `main.go` (package `main`): the two field coercion
helpers `toString` and `toFloat`, and the three handlers of `Store`
(`ListAlbums`, `GetAlbumByID`, `CreateAlbum`).

Conventions of the embedding

* A Go `interface{}` field value is the tagged union `Value`; its constructors
  are the dynamic types `toFloat` switches on together with the shapes
  `encoding/json` produces for a field (`nil`, `bool`, `float64`, `string`,
  `[]interface{}`, `map[string]interface{}`).
* A `float64` is its IEEE 754 binary64 bit pattern (`Float64`), so equality is
  bit equality and nothing depends on floating-point computation. The one
  conversion the source performs, `float64(t)` on integers, is embedded as
  round-to-nearest-even (`float64OfInt`).
* `strconv.ParseFloat` and the `%v` rendering of a `float64` belong to the Go
  standard library, not to this repository; they are taken as the parameter
  `Strconv`.
* The remote table is a parameter too (`Table`): three operations over a
  backend state, each returning the Go pair `(result, err)`. Every call made
  through the table handle is appended to a call log in `Conn`.
* A handler returns the response it writes with `c.IndentedJSON`, or `panicked`
  when it dereferences a nil pointer before writing anything.
-/

set_option linter.dupNamespace false

namespace Main

/-! ## float64 -/

/-- An IEEE 754 binary64 value as its three bit fields: sign bit, 11-bit biased
exponent (`expo < 2048`) and 52-bit fraction (`frac < 2 ^ 52`). -/
structure Float64 where
  sign : Bool
  expo : Nat
  frac : Nat
deriving DecidableEq, Repr

/-- The constant `0` converted to `float64`: positive zero. -/
def Float64.zero : Float64 := ⟨false, 0, 0⟩

/-- Positive or negative infinity. -/
def Float64.inf (sign : Bool) : Float64 := ⟨sign, 2047, 0⟩

/-- The rational number a finite `Float64` denotes; `none` for infinities and
NaNs (biased exponent 2047). -/
def Float64.toRat? (x : Float64) : Option ℚ :=
  if 2047 ≤ x.expo then none
  else
    let mag : ℚ :=
      if x.expo = 0 then (x.frac : ℚ) * (2 : ℚ) ^ (-1074 : ℤ)
      else ((2 ^ 52 + x.frac : ℕ) : ℚ) * (2 : ℚ) ^ ((x.expo : ℤ) - 1075)
    some (if x.sign then -mag else mag)

/-- Position of the highest set bit by repeated halving (`fuel` bounds the
number of halvings). -/
def ilog2Aux : Nat → Nat → Nat
  | 0, _ => 0
  | fuel + 1, n => if n < 2 then 0 else ilog2Aux fuel (n / 2) + 1

/-- Floor of the binary logarithm of `n` (`0` for `n = 0`). -/
def ilog2 (n : Nat) : Nat := ilog2Aux n n

/-- The Go conversion `float64(t)` of an integer `t`: the nearest binary64
value, ties to the even significand. -/
def float64OfInt (t : Int) : Float64 :=
  if t = 0 then Float64.zero
  else
    let neg : Bool := decide (t < 0)
    let n := t.natAbs
    let k := ilog2 n
    if k ≤ 52 then ⟨neg, 1023 + k, n * 2 ^ (52 - k) - 2 ^ 52⟩
    else
      let sh := k - 52
      let q := n / 2 ^ sh
      let r := n % 2 ^ sh
      let half := 2 ^ (sh - 1)
      let m := if half < r ∨ (r = half ∧ q % 2 = 1) then q + 1 else q
      let e := if m = 2 ^ 53 then 1023 + k + 1 else 1023 + k
      if 2047 ≤ e then Float64.inf neg
      else if m = 2 ^ 53 then ⟨neg, e, 0⟩
      else ⟨neg, e, m - 2 ^ 52⟩

/-! ## Untyped field values -/

/-- A Go `error` value: `none` is the nil error, `some msg` an error whose
`Error()` text is `msg`. -/
abbrev GoError := Option String

/-- A Go `interface{}` holding a backend field value. The payload of `int` and
of `int64` is the integer held; Go keeps it within 64 bits. -/
inductive Value where
  | nil
  | bool (b : Bool)
  | float64 (f : Float64)
  | int (i : Int)
  | int64 (i : Int)
  | jsonNumber (s : String)
  | string (s : String)
  | slice (xs : List Value)
  | map (kvs : List (String × Value))

/-- The part of the Go standard library the helpers rely on for `float64`:
`ParseFloat s` is `strconv.ParseFloat(s, 64)` (value and error), `FormatFloat f`
is the `%v` rendering of `f`. -/
structure Strconv where
  ParseFloat : String → Float64 × GoError
  FormatFloat : Float64 → String

/-- A `map[string]interface{}` as an association list; the first binding of a
key is the one in force. -/
abbrev Fields := List (String × Value)

/-- Go map indexing `f[key]`: the bound value, or the nil interface when the
key is absent (also on a nil map). -/
def Fields.get (f : Fields) (key : String) : Value :=
  match f.lookup key with
  | some v => v
  | none => Value.nil

/-- Keeps the first binding of every key. -/
def dedupKeys : List (String × String) → List (String × String)
  | [] => []
  | (k, v) :: rest => (k, v) :: (dedupKeys rest).filter (fun p => p.1 != k)

/-- Inserts a rendered map entry into a list ordered by key. -/
def insertByKey (e : String × String) : List (String × String) → List (String × String)
  | [] => [e]
  | x :: xs => if e.1 < x.1 then e :: x :: xs else x :: insertByKey e xs

/-- Orders rendered map entries by key, as `fmt` does when printing a map. -/
def sortByKey : List (String × String) → List (String × String)
  | [] => []
  | e :: es => insertByKey e (sortByKey es)

mutual
/-- The text `fmt.Sprint(v)` produces for a single operand `v` (verb `%v`). -/
def Sprint (sc : Strconv) : Value → String
  | .nil => "<nil>"
  | .bool b => if b then "true" else "false"
  | .float64 f => sc.FormatFloat f
  | .int i => Int.repr i
  | .int64 i => Int.repr i
  | .jsonNumber s => s
  | .string s => s
  | .slice xs => "[" ++ " ".intercalate (SprintElems sc xs) ++ "]"
  | .map kvs =>
      "map[" ++ " ".intercalate
        ((sortByKey (dedupKeys (SprintEntries sc kvs))).map (fun e => e.1 ++ ":" ++ e.2)) ++ "]"
/-- The elements of a slice, each rendered with `%v`. -/
def SprintElems (sc : Strconv) : List Value → List String
  | [] => []
  | v :: vs => Sprint sc v :: SprintElems sc vs
/-- The entries of a map, each value rendered with `%v`. -/
def SprintEntries (sc : Strconv) : List (String × Value) → List (String × String)
  | [] => []
  | (k, v) :: kvs => (k, Sprint sc v) :: SprintEntries sc kvs
end

/-! ## Coercion helpers (`main.go`, lines 133-149) -/

/-- Source: `func toString(v interface{}) string { return fmt.Sprint(v) }`. -/
def toString (sc : Strconv) (v : Value) : String := Sprint sc v

/-- Source: `func toFloat(v interface{}) float64`, a type switch with cases
`float64`, `int`, `int64`, `json.Number` and `default`. `json.Number.Float64()`
is `strconv.ParseFloat(string(n), 64)`; its error is discarded. -/
def toFloat (sc : Strconv) (v : Value) : Float64 :=
  match v with
  | .float64 t => t
  | .int t => float64OfInt t
  | .int64 t => float64OfInt t
  | .jsonNumber t => (sc.ParseFloat t).1
  | _ => Float64.zero

/-! ## Domain and backend data -/

/-- Source: `type album struct { ID, Title, Artist string; Price float64 }`. -/
structure album where
  ID : String
  Title : String
  Artist : String
  Price : Float64
deriving DecidableEq, Repr

/-- The fields of `airtable.Record` the handlers touch: the backend-assigned
record identifier and the field mapping. -/
structure Record where
  ID : String
  Fields : Fields

/-- Source type `airtable.Records`: `Records []*Record`. An element is a
pointer, `none` being the nil pointer. -/
structure Records where
  Records : List (Option Record)

/-- One call made through the table handle. -/
inductive BackendCall where
  | GetRecords
  | GetRecord (recordID : String)
  | AddRecords (payload : Records)

/-- The remote table as the handlers see it: each operation maps the backend
state to the Go result pair `(value, err)` and the next backend state. -/
structure Table (σ : Type) where
  getRecords : σ → (Option Records × GoError) × σ
  getRecord : String → σ → (Option Record × GoError) × σ
  addRecords : Records → σ → (Option Records × GoError) × σ

/-- The backend state together with the log of calls made so far. -/
structure Conn (σ : Type) where
  backend : σ
  calls : List BackendCall

/-- A connection on which no call has been made yet. -/
def Conn.fresh {σ : Type} (st : σ) : Conn σ := ⟨st, []⟩

/-- The call `s.table.GetRecords().Do()`. -/
def Table.GetRecords {σ : Type} (t : Table σ) (w : Conn σ) :
    (Option Records × GoError) × Conn σ :=
  let r := t.getRecords w.backend
  (r.1, ⟨r.2, w.calls ++ [BackendCall.GetRecords]⟩)

/-- The call `s.table.GetRecord(id)`. -/
def Table.GetRecord {σ : Type} (t : Table σ) (id : String) (w : Conn σ) :
    (Option Record × GoError) × Conn σ :=
  let r := t.getRecord id w.backend
  (r.1, ⟨r.2, w.calls ++ [BackendCall.GetRecord id]⟩)

/-- The call `s.table.AddRecords(payload)`. -/
def Table.AddRecords {σ : Type} (t : Table σ) (payload : Records) (w : Conn σ) :
    (Option Records × GoError) × Conn σ :=
  let r := t.addRecords payload w.backend
  (r.1, ⟨r.2, w.calls ++ [BackendCall.AddRecords payload]⟩)

/-! ## HTTP side -/

def StatusOK : Nat := 200
def StatusCreated : Nat := 201
def StatusBadRequest : Nat := 400
def StatusNotFound : Nat := 404
def StatusInternalServerError : Nat := 500

/-- The value handed to `c.IndentedJSON`: a one-key `gin.H`, an `album`, or an
`[]album` (`none` is the nil slice, which encodes as `null`; `some []` is the
empty non-nil slice, which encodes as `[]`). -/
inductive Body where
  | H (key : String) (value : String)
  | album (a : album)
  | albums (out : Option (List album))
deriving DecidableEq

/-- One `c.IndentedJSON(code, obj)`. -/
structure Response where
  code : Nat
  obj : Body
deriving DecidableEq

/-- How a handler invocation ends. -/
inductive Outcome where
  | responded (r : Response)
  | panicked
deriving DecidableEq

/-- What a handler reads from `*gin.Context`: the path parameters and the
result of `c.BindJSON(&a)` (the decode error text, or the decoded album). -/
structure Context where
  Param : String → String
  BindJSON : Except String album

/-- Source: `type Store struct { table *airtable.Table }`. -/
structure Store (σ : Type) where
  table : Table σ

/-- Source: `func NewStore(table *airtable.Table) *Store`. -/
def NewStore {σ : Type} (table : Table σ) : Store σ := ⟨table⟩

/-- The `for _, r := range recs.Records` loop of `ListAlbums` with its
accumulator `out`; `none` when `r.Fields` is read through a nil `r`. -/
def ListAlbums.loop (sc : Strconv) : List (Option Record) → List album → Option (List album)
  | [], out => some out
  | none :: _, _ => none
  | some r :: rest, out =>
      let f := r.Fields
      ListAlbums.loop sc rest (out ++ [{
        ID := toString sc (f.get "id"),
        Title := toString sc (f.get "title"),
        Artist := toString sc (f.get "artist"),
        Price := toFloat sc (f.get "price") }])

/-- Source: `func (s *Store) ListAlbums(c *gin.Context)`, lines 30-47. -/
def Store.ListAlbums {σ : Type} (sc : Strconv) (s : Store σ) (_c : Context) (w : Conn σ) :
    Outcome × Conn σ :=
  let r := s.table.GetRecords w
  match r.1.2 with
  | some err => (.responded ⟨StatusInternalServerError, .H "error" err⟩, r.2)
  | none =>
    match r.1.1 with
    | none => (.panicked, r.2)
    | some recs =>
      match ListAlbums.loop sc recs.Records [] with
      | none => (.panicked, r.2)
      | some out => (.responded ⟨StatusOK, .albums (some out)⟩, r.2)

/-- Source: `func (s *Store) GetAlbumByID(c *gin.Context)`, lines 49-68. -/
def Store.GetAlbumByID {σ : Type} (sc : Strconv) (s : Store σ) (c : Context) (w : Conn σ) :
    Outcome × Conn σ :=
  let id := c.Param "id"
  let r := s.table.GetRecord id w
  match r.1.2 with
  | some err => (.responded ⟨StatusInternalServerError, .H "error" err⟩, r.2)
  | none =>
    match r.1.1 with
    | none => (.responded ⟨StatusNotFound, .H "message" "album not found"⟩, r.2)
    | some rec =>
      let f := rec.Fields
      let a : album := {
        ID := toString sc (f.get "id"),
        Title := toString sc (f.get "title"),
        Artist := toString sc (f.get "artist"),
        Price := toFloat sc (f.get "price") }
      (.responded ⟨StatusOK, .album a⟩, r.2)

/-- Source: `func (s *Store) CreateAlbum(c *gin.Context)`, lines 69-98. The
condition `err != nil || len(recs.Records) == 0` short-circuits: `recs` is read
only when `err` is nil. -/
def Store.CreateAlbum {σ : Type} (sc : Strconv) (s : Store σ) (c : Context) (w : Conn σ) :
    Outcome × Conn σ :=
  match c.BindJSON with
  | .error err => (.responded ⟨StatusBadRequest, .H "error" err⟩, w)
  | .ok a =>
    let payload : Records := ⟨[some {
      ID := "",
      Fields := [
        ("id", .string a.ID),
        ("title", .string a.Title),
        ("artist", .string a.Artist),
        ("price", .float64 a.Price)] }]⟩
    let r := s.table.AddRecords payload w
    match r.1.2 with
    | some _ =>
      (.responded ⟨StatusInternalServerError, .H "error" "failed to create album"⟩, r.2)
    | none =>
      match r.1.1 with
      | none => (.panicked, r.2)
      | some recs =>
        match recs.Records with
        | [] =>
          (.responded ⟨StatusInternalServerError, .H "error" "failed to create album"⟩, r.2)
        | none :: _ => (.panicked, r.2)
        | some r0 :: _ =>
          let f := r0.Fields
          let out : album := {
            ID := toString sc (f.get "id"),
            Title := toString sc (f.get "title"),
            Artist := toString sc (f.get "artist"),
            Price := toFloat sc (f.get "price") }
          (.responded ⟨StatusCreated, .album out⟩, r.2)

/-- The HTTP status a handler invocation wrote, if it wrote one. -/
def Outcome.status : Outcome → Option Nat
  | .responded r => some r.code
  | .panicked => none

/-! ## The specification's vocabulary -/

/-- The record mapping as the specification words it: `toString` of the fields
`id`, `title`, `artist` and `toFloat` of the field `price`. -/
def albumOfFields (sc : Strconv) (f : Fields) : album :=
  ⟨toString sc (f.get "id"), toString sc (f.get "title"), toString sc (f.get "artist"),
    toFloat sc (f.get "price")⟩

/-- The inverse mapping as the specification words it: the four known fields
of an album, texts as texts and the price as a number. -/
def fieldsOfAlbum (a : album) : Fields :=
  [("id", .string a.ID), ("title", .string a.Title), ("artist", .string a.Artist),
    ("price", .float64 a.Price)]

/-- Reads a run of decimal digits, most significant first. -/
def natOfDigits (acc : Nat) : List Char → Option Nat
  | [] => some acc
  | c :: cs => if c.isDigit then natOfDigits (acc * 10 + (c.toNat - 48)) cs else none

/-- A plain decimal numeral `digits` or `digits.digits` as (all its digits read
as one natural number, how many of them follow the point). -/
def unsignedDecimal? (cs : List Char) : Option (Nat × Nat) :=
  let ip := cs.takeWhile (fun c => c != '.')
  match cs.dropWhile (fun c => c != '.') with
  | [] => if ip.isEmpty then none else (natOfDigits 0 ip).map (fun n => (n, 0))
  | _ :: fp =>
    if ip.isEmpty || fp.isEmpty then none
    else (natOfDigits 0 (ip ++ fp)).map (fun n => (n, fp.length))

/-- The number a text holds when it is a plain decimal numeral with an optional
leading minus sign, such as `12.5`; `none` for any other text. -/
def decimalText? (s : String) : Option ℚ :=
  match s.toList with
  | '-' :: cs => (unsignedDecimal? cs).map (fun p => -((p.1 : ℚ) / 10 ^ p.2))
  | cs => (unsignedDecimal? cs).map (fun p => (p.1 : ℚ) / 10 ^ p.2)

/-- The decimal value a numeric-looking field value denotes, in the
specification's sense of numeric-looking: a floating-point number, an integer,
or a text holding a number. `none` for every other value. -/
def denotes? : Value → Option ℚ
  | .float64 f => f.toRat?
  | .int i => some (i : ℚ)
  | .int64 i => some (i : ℚ)
  | .jsonNumber s => decimalText? s
  | .string s => decimalText? s
  | _ => none

/-- The assumption of the round-trip property on a backend: a created record
is returned and kept with its field mapping verbatim, and is found afterwards
under the text its `id` field holds. -/
def Table.PreservesIdField {σ : Type} (t : Table σ) : Prop :=
  ∀ (st : σ) (rec : Record) (id : String), rec.Fields.get "id" = Value.string id →
    ∃ (created found : Record) (st1 st2 : σ),
      t.addRecords ⟨[some rec]⟩ st = ((some ⟨[some created]⟩, none), st1) ∧
      created.Fields = rec.Fields ∧
      t.getRecord id st1 = ((some found, none), st2) ∧
      found.Fields = rec.Fields

/-! ## A test double and a ground `Strconv` -/

/-- Whether the field mapping holds the text `id` in its `id` field. -/
def hasIdField (id : String) (f : Fields) : Bool :=
  match f.get "id" with
  | .string s => s == id
  | _ => false

/-- Stores the non-nil records of a payload in front of the table, newest
first, giving each a record identifier; returns (created, new table). -/
def memStore (st : List Record) : List (Option Record) → List Record × List Record
  | [] => ([], st)
  | none :: rest => memStore st rest
  | some r :: rest =>
    let r1 : Record := ⟨"rec" ++ Nat.repr st.length, r.Fields⟩
    let next := memStore (r1 :: st) rest
    (r1 :: next.1, next.2)

/-- An in-memory test double of the remote table: it never fails, keeps the
created field mappings verbatim, and finds a record by the text in its `id`
field (the newest such record; nil when there is none). -/
def memTable : Table (List Record) where
  getRecords st := ((some ⟨st.map some⟩, none), st)
  getRecord id st := ((st.find? (fun r => hasIdField id r.Fields), none), st)
  addRecords payload st :=
    let res := memStore st payload.Records
    ((some ⟨res.1.map some⟩, none), res.2)

/-- A scripted backend: every call returns the same Go pair, `(recs, err)` for
the list and create calls and `(rec, err)` for the get call. -/
def cannedTable (recs : Option Records) (rec : Option Record) (err : GoError) : Table Unit where
  getRecords st := ((recs, err), st)
  getRecord _ st := ((rec, err), st)
  addRecords _ st := ((recs, err), st)

/-- A ground instance of `Strconv` for evaluating the handlers on concrete
inputs. `ParseFloat` reads unsigned decimal integer literals (correctly
rounded) and answers every other text with value 0 and a syntax error;
`FormatFloat` renders positive zero as `0` and any other value by its bit
fields. The theorems below hold for every `Strconv`; this instance only closes
ground statements, none of which depends on these two renderings. -/
def groundStrconv : Strconv where
  ParseFloat s :=
    match s.toList with
    | [] => (Float64.zero, some "invalid syntax")
    | cs =>
      match natOfDigits 0 cs with
      | some n => (float64OfInt n, none)
      | none => (Float64.zero, some "invalid syntax")
  FormatFloat f :=
    if f = Float64.zero then "0"
    else "float64(" ++ (if f.sign then "1" else "0") ++ "," ++ Nat.repr f.expo ++ "," ++
      Nat.repr f.frac ++ ")"

/-- A request context with the path parameter `id` and a body that decoded
into `a`. -/
def ctxOk (id : String) (a : album) : Context := ⟨fun _ => id, .ok a⟩

/-- A request context whose body failed to decode with the error text `msg`. -/
def ctxBad (msg : String) : Context := ⟨fun _ => "", .error msg⟩

/-! ## Lemmas on the integer conversion -/

/-- The halving loop brackets `n` between two consecutive powers of two. -/
theorem ilog2Aux_spec (fuel : Nat) : ∀ n : Nat, n ≤ fuel → 0 < n →
    2 ^ ilog2Aux fuel n ≤ n ∧ n < 2 ^ (ilog2Aux fuel n + 1) := by
  induction fuel with
  | zero => intro n h0 h1; omega
  | succ fuel ih =>
    intro n hle hpos
    unfold ilog2Aux
    by_cases h2 : n < 2
    · simp only [h2, if_true]
      constructor <;> simp <;> omega
    · simp only [h2, if_false]
      have hdiv : n / 2 ≤ fuel := by omega
      have hdpos : 0 < n / 2 := by omega
      obtain ⟨h3, h4⟩ := ih (n / 2) hdiv hdpos
      constructor
      · rw [pow_succ]; omega
      · rw [pow_succ]; omega

/-- The value `ilog2 n` is the floor of the binary logarithm of a positive `n`. -/
theorem ilog2_spec (n : Nat) (h : 0 < n) : 2 ^ ilog2 n ≤ n ∧ n < 2 ^ (ilog2 n + 1) :=
  ilog2Aux_spec n n (le_refl n) h

/-- Integers below `2 ^ 53` fit the 53-bit significand. -/
theorem ilog2_le_of_lt (n : Nat) (h : 0 < n) (hn : n < 2 ^ 53) : ilog2 n ≤ 52 := by
  by_contra hk
  have h53 : 53 ≤ ilog2 n := by omega
  have := (ilog2_spec n h).1
  have h2 : 2 ^ 53 ≤ 2 ^ ilog2 n := Nat.pow_le_pow_right (by norm_num) h53
  omega

/-- The value of the binary64 built for an integer that needs no rounding. -/
theorem toRat_normal (s : Bool) (n k : Nat) (hk : k ≤ 52) (hlo : 2 ^ k ≤ n) :
    Float64.toRat? ⟨s, 1023 + k, n * 2 ^ (52 - k) - 2 ^ 52⟩
      = some (if s then -(n : ℚ) else (n : ℚ)) := by
  have hge : 2 ^ 52 ≤ n * 2 ^ (52 - k) := by
    calc 2 ^ 52 = 2 ^ k * 2 ^ (52 - k) := by rw [← pow_add]; congr 1; omega
      _ ≤ n * 2 ^ (52 - k) := Nat.mul_le_mul_right _ hlo
  have hsum : 2 ^ 52 + (n * 2 ^ (52 - k) - 2 ^ 52) = n * 2 ^ (52 - k) := by omega
  have h1 : ¬ (2047 ≤ 1023 + k) := by omega
  have h2 : ¬ (1023 + k = 0) := by omega
  have hmag : ((n * 2 ^ (52 - k) : ℕ) : ℚ) * (2 : ℚ) ^ (((1023 + k : ℕ) : ℤ) - 1075) = (n : ℚ) := by
    have he : (((1023 + k : ℕ) : ℤ) - 1075) = -((52 - k : ℕ) : ℤ) := by omega
    rw [he, zpow_neg, zpow_natCast]
    push_cast
    field_simp
  simp only [Float64.toRat?, h1, h2, if_false, hsum, hmag]

/-- The conversion `float64(t)` is exact for `|t| ≤ 2 ^ 53`. -/
theorem float64OfInt_exact (t : Int) (h : t.natAbs ≤ 2 ^ 53) :
    (float64OfInt t).toRat? = some (t : ℚ) := by
  by_cases h0 : t = 0
  · subst h0
    simp [float64OfInt, Float64.zero, Float64.toRat?]
  · have hpos : 0 < t.natAbs := Int.natAbs_pos.mpr h0
    have hcast : ((t.natAbs : ℕ) : ℚ) = (((t.natAbs : ℕ) : ℤ) : ℚ) := (Int.cast_natCast _).symm
    have hval : (if decide (t < 0) then -((t.natAbs : ℕ) : ℚ) else ((t.natAbs : ℕ) : ℚ)) = (t : ℚ) := by
      by_cases hneg : t < 0
      · have h1 : ((t.natAbs : ℕ) : ℤ) = -t := by omega
        rw [hcast, h1]
        simp [hneg]
      · have h1 : ((t.natAbs : ℕ) : ℤ) = t := by omega
        rw [hcast, h1]
        simp [hneg]
    rcases Nat.lt_or_ge t.natAbs (2 ^ 53) with hlt | hge
    · have hk := ilog2_le_of_lt _ hpos hlt
      have hlo := (ilog2_spec _ hpos).1
      simp only [float64OfInt, h0, if_false, hk, if_true]
      rw [toRat_normal _ _ _ hk hlo, hval]
    · have heq : t.natAbs = 2 ^ 53 := le_antisymm h hge
      have ht : t = 9007199254740992 ∨ t = -9007199254740992 := by omega
      rcases ht with ht | ht
      · subst ht
        rw [show float64OfInt 9007199254740992 = ⟨false, 1076, 0⟩ from rfl]
        simp [Float64.toRat?]; norm_num
      · subst ht
        rw [show float64OfInt (-9007199254740992) = ⟨true, 1076, 0⟩ from rfl]
        simp [Float64.toRat?]; norm_num

/-- One tenth is not a natural number times a power of two. -/
theorem dyadic_ne_tenth (m : Nat) (e : Int) : (m : ℚ) * (2 : ℚ) ^ e ≠ 1 / 10 := by
  intro h
  rcases le_or_lt 0 e with he | he
  · obtain ⟨k, rfl⟩ := Int.eq_ofNat_of_zero_le he
    rw [zpow_natCast] at h
    have h2 : ((10 * (m * 2 ^ k) : ℕ) : ℚ) = ((1 : ℕ) : ℚ) := by
      push_cast
      rw [h]
      norm_num
    have h3 : 10 * (m * 2 ^ k) = 1 := by exact_mod_cast h2
    omega
  · obtain ⟨k, hk⟩ : ∃ k : ℕ, e = -(k : ℤ) := ⟨(-e).toNat, by omega⟩
    subst hk
    rw [zpow_neg, zpow_natCast] at h
    have hpos : (2 : ℚ) ^ k ≠ 0 := by positivity
    have h2 : ((10 * m : ℕ) : ℚ) = ((2 ^ k : ℕ) : ℚ) := by
      push_cast
      field_simp at h
      linarith
    have h3 : 10 * m = 2 ^ k := by exact_mod_cast h2
    have h5 : 5 ∣ 2 ^ k := ⟨2 * m, by omega⟩
    have := (Nat.Prime.dvd_of_dvd_pow (by norm_num : Nat.Prime 5) h5)
    omega

/-- No binary64 value denotes one tenth. -/
theorem float64_ne_tenth (x : Float64) : x.toRat? ≠ some (1 / 10) := by
  have hsign : ∀ (s : Bool) (q : ℚ), 0 ≤ q → q ≠ 1 / 10 → (if s then -q else q) ≠ 1 / 10 := by
    intro s q hq hne
    cases s
    · simpa using hne
    · intro h
      simp only [if_true] at h
      linarith
  unfold Float64.toRat?
  by_cases h1 : 2047 ≤ x.expo
  · simp [h1]
  · simp only [h1, if_false]
    intro h
    refine hsign x.sign _ ?_ ?_ (Option.some.inj h)
    · by_cases h0 : x.expo = 0
      · simp only [h0, if_true]; positivity
      · simp only [h0, if_false]; positivity
    · by_cases h0 : x.expo = 0
      · simp only [h0, if_true]; exact dyadic_ne_tenth _ _
      · simp only [h0, if_false]; exact dyadic_ne_tenth _ _

/-! ## Coercion helpers -/

/-- C1 (counterexample). The text `12.5` in a plain Go string denotes 25/2, yet
`toFloat` takes the `default` branch and returns 0; the `int64` `2 ^ 53 + 1`
comes back as `2 ^ 53`; and the `json.Number` `0.1` denotes one tenth, which no
`float64` result can be, whatever `strconv.ParseFloat` answers. -/
theorem toFloat_exact_counterexample :
    denotes? (.string "12.5") = some (25 / 2) ∧
    toFloat groundStrconv (.string "12.5") = Float64.zero ∧
    (toFloat groundStrconv (.string "12.5")).toRat? = some 0 ∧
    denotes? (.int64 9007199254740993) = some 9007199254740993 ∧
    (toFloat groundStrconv (.int64 9007199254740993)).toRat? = some 9007199254740992 ∧
    denotes? (.jsonNumber "0.1") = some (1 / 10) ∧
    (∀ sc : Strconv, (toFloat sc (.jsonNumber "0.1")).toRat? ≠ some (1 / 10)) := by
  refine ⟨?_, rfl, ?_, ?_, ?_, ?_, fun sc => float64_ne_tenth _⟩
  · simp [denotes?, decimalText?,
      show unsignedDecimal? ['1', '2', '.', '5'] = some (125, 1) from rfl]
    norm_num
  · simp [toFloat, Float64.zero, Float64.toRat?]
  · simp [denotes?]
  · rw [show toFloat groundStrconv (.int64 9007199254740993) = ⟨false, 1076, 0⟩ from rfl]
    simp [Float64.toRat?]
    norm_num
  · simp [denotes?, decimalText?,
      show unsignedDecimal? ['0', '.', '1'] = some (1, 1) from rfl]

/-- C1 (amended). `toFloat` returns a `float64` operand unchanged; for an `int`
or `int64` operand `t` with `|t| ≤ 2 ^ 53` it returns exactly `t`; for a
`json.Number` it returns the value `strconv.ParseFloat` gives for its text, the
error discarded; for a plain string, whatever it holds, it returns 0. -/
theorem toFloat_numeric (sc : Strconv) :
    (∀ f : Float64, toFloat sc (.float64 f) = f) ∧
    (∀ t : Int, t.natAbs ≤ 2 ^ 53 → (toFloat sc (.int t)).toRat? = some (t : ℚ)) ∧
    (∀ t : Int, t.natAbs ≤ 2 ^ 53 → (toFloat sc (.int64 t)).toRat? = some (t : ℚ)) ∧
    (∀ s : String, toFloat sc (.jsonNumber s) = (sc.ParseFloat s).1) ∧
    (∀ s : String, toFloat sc (.string s) = Float64.zero) :=
  ⟨fun _ => rfl, fun t h => float64OfInt_exact t h, fun t h => float64OfInt_exact t h,
    fun _ => rfl, fun _ => rfl⟩

/-- C1 (ground instance): an `int` field holding -3 and a `json.Number` holding
the literal 12 come back as the numbers -3 and 12. -/
theorem toFloat_numeric_witness :
    (toFloat groundStrconv (.int (-3))).toRat? = some ((-3 : Int) : ℚ) ∧
    toFloat groundStrconv (.jsonNumber "12") = ⟨false, 1026, 2251799813685248⟩ ∧
    toFloat groundStrconv (.string "12") = Float64.zero :=
  ⟨(toFloat_numeric groundStrconv).2.1 (-3) (by decide),
    ((toFloat_numeric groundStrconv).2.2.2.1 "12").trans rfl,
    (toFloat_numeric groundStrconv).2.2.2.2 "12"⟩

/-- C2. `toFloat` is a total function, and on every operand whose dynamic type
is none of `float64`, `int`, `int64`, `json.Number` (a nil interface, a
boolean, a map, a slice, a string) it returns positive zero, the number 0. -/
theorem toFloat_default (sc : Strconv) (v : Value)
    (hf : ∀ f, v ≠ .float64 f) (hi : ∀ t, v ≠ .int t) (hl : ∀ t, v ≠ .int64 t)
    (hn : ∀ s, v ≠ .jsonNumber s) :
    toFloat sc v = Float64.zero ∧ (toFloat sc v).toRat? = some 0 := by
  have hz : toFloat sc v = Float64.zero := by
    cases v with
    | float64 f => exact absurd rfl (hf f)
    | int t => exact absurd rfl (hi t)
    | int64 t => exact absurd rfl (hl t)
    | jsonNumber s => exact absurd rfl (hn s)
    | nil => rfl
    | bool b => rfl
    | string s => rfl
    | slice xs => rfl
    | map kvs => rfl
  refine ⟨hz, ?_⟩
  rw [hz]
  simp [Float64.zero, Float64.toRat?]

/-- C2 (ground instance): an object holding a list, and a field absent from the
mapping, both coerce to zero. -/
theorem toFloat_default_witness :
    toFloat groundStrconv (.map [("amount", .slice [.bool true])]) = Float64.zero ∧
    toFloat groundStrconv (Fields.get [("title", .string "Blue Train")] "price") = Float64.zero :=
  ⟨(toFloat_default groundStrconv (.map [("amount", .slice [.bool true])])
      (fun _ h => by cases h) (fun _ h => by cases h) (fun _ h => by cases h)
      (fun _ h => by cases h)).1,
   (toFloat_default groundStrconv (Fields.get [("title", .string "Blue Train")] "price")
      (fun _ h => by cases h) (fun _ h => by cases h) (fun _ h => by cases h)
      (fun _ h => by cases h)).1⟩

/-- C3. `toString` is a total function on field values; on the nil interface it
returns the text `<nil>`, and on a string it returns that string unchanged. -/
theorem toString_nil_and_text (sc : Strconv) :
    toString sc .nil = "<nil>" ∧ (∀ s : String, toString sc (.string s) = s) ∧
    (∀ f : Fields, f.lookup "id" = none → toString sc (f.get "id") = "<nil>") := by
  refine ⟨rfl, fun _ => rfl, fun f h => ?_⟩
  simp [Fields.get, h, toString, Sprint]


/-! ## Handlers -/

/-- The loop of `ListAlbums` over non-nil records appends the mapped albums to
its accumulator, in order. -/
theorem ListAlbums_loop_map (sc : Strconv) (rs : List Record) : ∀ out : List album,
    ListAlbums.loop sc (rs.map some) out
      = some (out ++ rs.map (fun r => albumOfFields sc r.Fields)) := by
  induction rs with
  | nil => intro out; simp [ListAlbums.loop]
  | cons r rs ih =>
    intro out
    simp only [List.map_cons, ListAlbums.loop]
    rw [ih]
    simp [albumOfFields]

/-- The in-memory table meets the round-trip assumption. -/
theorem memTable_preservesIdField : memTable.PreservesIdField := by
  intro st rec id hid
  refine ⟨⟨"rec" ++ Nat.repr st.length, rec.Fields⟩, ⟨"rec" ++ Nat.repr st.length, rec.Fields⟩,
    ⟨"rec" ++ Nat.repr st.length, rec.Fields⟩ :: st, ⟨"rec" ++ Nat.repr st.length, rec.Fields⟩ :: st,
    rfl, rfl, ?_, rfl⟩
  simp [memTable, List.find?, hasIdField, hid]

/-- C4. Whenever the backend returns a list of records `rs` and no error,
`ListAlbums` answers 200 with a non-nil album slice that is `rs` mapped record
by record, in order: same length, the i-th album being the record mapping of
the i-th record, and the empty slice for the empty table. -/
theorem ListAlbums_ok {σ : Type} (sc : Strconv) (s : Store σ) (c : Context) (w : Conn σ)
    (rs : List Record) (st1 : σ)
    (h : s.table.getRecords w.backend = ((some ⟨rs.map some⟩, none), st1)) :
    ∃ out : List album,
      (s.ListAlbums sc c w).1 = .responded ⟨StatusOK, .albums (some out)⟩ ∧
      (s.ListAlbums sc c w).1.status = some 200 ∧
      out = rs.map (fun r => albumOfFields sc r.Fields) ∧
      out.length = rs.length ∧
      (∀ i : Nat, out[i]? = (rs[i]?).map (fun r => albumOfFields sc r.Fields)) ∧
      (rs = [] → out = []) := by
  refine ⟨rs.map (fun r => albumOfFields sc r.Fields), ?_, ?_, rfl, by simp, ?_, ?_⟩
  · simp [Store.ListAlbums, Table.GetRecords, h, ListAlbums_loop_map]
  · simp [Store.ListAlbums, Table.GetRecords, h, ListAlbums_loop_map, Outcome.status, StatusOK]
  · intro i; simp
  · intro he; simp [he]

/-- C4 (ground instance): a table of two records, and the empty table. -/
theorem ListAlbums_ok_witness :
    (∃ out : List album,
      ((NewStore memTable).ListAlbums groundStrconv (ctxOk "" ⟨"", "", "", Float64.zero⟩)
        (Conn.fresh [⟨"rec1", [("id", .string "2"), ("title", .string "Jeru")]⟩,
          ⟨"rec0", [("id", .string "1"), ("price", .int 17)]⟩])).1
        = .responded ⟨StatusOK, .albums (some out)⟩ ∧ out.length = 2) ∧
    ((NewStore memTable).ListAlbums groundStrconv (ctxOk "" ⟨"", "", "", Float64.zero⟩)
        (Conn.fresh [])).1 = .responded ⟨200, .albums (some [])⟩ := by
  constructor
  · obtain ⟨out, h1, _, _, h4, _⟩ := ListAlbums_ok groundStrconv (NewStore memTable)
      (ctxOk "" ⟨"", "", "", Float64.zero⟩)
      (Conn.fresh [⟨"rec1", [("id", .string "2"), ("title", .string "Jeru")]⟩,
          ⟨"rec0", [("id", .string "1"), ("price", .int 17)]⟩])
      [⟨"rec1", [("id", .string "2"), ("title", .string "Jeru")]⟩,
          ⟨"rec0", [("id", .string "1"), ("price", .int 17)]⟩] _ rfl
    exact ⟨out, h1, h4⟩
  · obtain ⟨out, h1, _, h3, _, _⟩ := ListAlbums_ok groundStrconv (NewStore memTable)
      (ctxOk "" ⟨"", "", "", Float64.zero⟩) (Conn.fresh []) [] _ rfl
    rw [h1, h3]; rfl

/-- C5. `GetAlbumByID` answers 500 with the raw error text exactly when the
backend call returns an error, 404 with the message `album not found` exactly
when it returns no error and a nil record, and 200 with the mapped album
exactly when it returns no error and a record. -/
theorem GetAlbumByID_cases {σ : Type} (sc : Strconv) (s : Store σ) (c : Context) (w : Conn σ) :
    (∀ e, (s.table.getRecord (c.Param "id") w.backend).1.2 = some e →
      (s.GetAlbumByID sc c w).1 = .responded ⟨500, .H "error" e⟩) ∧
    ((s.table.getRecord (c.Param "id") w.backend).1.2 = none →
      (s.table.getRecord (c.Param "id") w.backend).1.1 = none →
      (s.GetAlbumByID sc c w).1 = .responded ⟨404, .H "message" "album not found"⟩) ∧
    (∀ rec, (s.table.getRecord (c.Param "id") w.backend).1.2 = none →
      (s.table.getRecord (c.Param "id") w.backend).1.1 = some rec →
      (s.GetAlbumByID sc c w).1 = .responded ⟨200, .album (albumOfFields sc rec.Fields)⟩) ∧
    ((s.GetAlbumByID sc c w).1.status = some 500 ↔
      (s.table.getRecord (c.Param "id") w.backend).1.2 ≠ none) ∧
    ((s.GetAlbumByID sc c w).1.status = some 404 ↔
      ((s.table.getRecord (c.Param "id") w.backend).1.2 = none ∧
        (s.table.getRecord (c.Param "id") w.backend).1.1 = none)) ∧
    ((s.GetAlbumByID sc c w).1.status = some 200 ↔
      ((s.table.getRecord (c.Param "id") w.backend).1.2 = none ∧
        (s.table.getRecord (c.Param "id") w.backend).1.1 ≠ none)) := by
  simp only [Store.GetAlbumByID, Table.GetRecord]
  generalize s.table.getRecord (c.Param "id") w.backend = r
  obtain ⟨⟨rec, err⟩, st1⟩ := r
  cases err with
  | some e =>
    simp [Outcome.status, StatusInternalServerError]
  | none =>
    cases rec with
    | none => simp [Outcome.status, StatusNotFound]
    | some rec => simp [Outcome.status, StatusOK, albumOfFields]


/-- C5 (ground instances): a backend that is down, an identifier the test
double does not hold, and one it holds. -/
theorem GetAlbumByID_cases_witness :
    ((NewStore (cannedTable none none (some "connection refused"))).GetAlbumByID groundStrconv
        (ctxOk "7" ⟨"", "", "", Float64.zero⟩) (Conn.fresh ())).1
      = .responded ⟨500, .H "error" "connection refused"⟩ ∧
    ((NewStore memTable).GetAlbumByID groundStrconv (ctxOk "7" ⟨"", "", "", Float64.zero⟩)
        (Conn.fresh [⟨"rec0", [("id", .string "1")]⟩])).1
      = .responded ⟨404, .H "message" "album not found"⟩ ∧
    ((NewStore memTable).GetAlbumByID groundStrconv (ctxOk "1" ⟨"", "", "", Float64.zero⟩)
        (Conn.fresh [⟨"rec0", [("id", .string "1"), ("title", .string "Jeru")]⟩])).1
      = .responded ⟨200, .album ⟨"1", "Jeru", "<nil>", Float64.zero⟩⟩ :=
  ⟨(GetAlbumByID_cases groundStrconv (NewStore (cannedTable none none (some "connection refused")))
      (ctxOk "7" ⟨"", "", "", Float64.zero⟩) (Conn.fresh ())).1 "connection refused" rfl,
   (GetAlbumByID_cases groundStrconv (NewStore memTable)
      (ctxOk "7" ⟨"", "", "", Float64.zero⟩)
      (Conn.fresh [⟨"rec0", [("id", .string "1")]⟩])).2.1 rfl rfl,
   (GetAlbumByID_cases groundStrconv (NewStore memTable)
      (ctxOk "1" ⟨"", "", "", Float64.zero⟩)
      (Conn.fresh [⟨"rec0", [("id", .string "1"), ("title", .string "Jeru")]⟩])).2.2.1
      ⟨"rec0", [("id", .string "1"), ("title", .string "Jeru")]⟩ rfl rfl⟩

/-- C6. When decoding the request body fails with error text `msg`,
`CreateAlbum` answers 400 carrying `msg` and leaves the connection as it was:
no call is logged and the backend state is untouched. -/
theorem CreateAlbum_bad_body {σ : Type} (sc : Strconv) (s : Store σ) (c : Context)
    (w : Conn σ) (msg : String) (h : c.BindJSON = .error msg) :
    (s.CreateAlbum sc c w).1 = .responded ⟨400, .H "error" msg⟩ ∧
    (s.CreateAlbum sc c w).2.calls = w.calls ∧
    (s.CreateAlbum sc c w).2.backend = w.backend := by
  simp [Store.CreateAlbum, h, StatusBadRequest]

/-- C6 (ground instance): an empty body. -/
theorem CreateAlbum_bad_body_witness :
    ((NewStore memTable).CreateAlbum groundStrconv (ctxBad "EOF") (Conn.fresh [])).1
      = .responded ⟨400, .H "error" "EOF"⟩ ∧
    ((NewStore memTable).CreateAlbum groundStrconv (ctxBad "EOF") (Conn.fresh [])).2.calls = [] ∧
    ((NewStore memTable).CreateAlbum groundStrconv (ctxBad "EOF") (Conn.fresh [])).2.backend = [] :=
  CreateAlbum_bad_body groundStrconv (NewStore memTable) (ctxBad "EOF") (Conn.fresh []) "EOF" rfl

/-- C7. For a decoded album `a`, when the create call returns an error (with
any record list, nil included), or no error and an empty record list,
`CreateAlbum` answers 500 with the fixed message `failed to create album`. The
answer mentions neither the error text nor the returned list. -/
theorem CreateAlbum_failure {σ : Type} (sc : Strconv) (s : Store σ) (c : Context)
    (w : Conn σ) (a : album) (hb : c.BindJSON = .ok a)
    (hfail : (s.table.addRecords ⟨[some ⟨"", fieldsOfAlbum a⟩]⟩ w.backend).1.2 ≠ none ∨
      ((s.table.addRecords ⟨[some ⟨"", fieldsOfAlbum a⟩]⟩ w.backend).1.2 = none ∧
        ∃ recs : Records,
          (s.table.addRecords ⟨[some ⟨"", fieldsOfAlbum a⟩]⟩ w.backend).1.1 = some recs ∧
          recs.Records = [])) :
    (s.CreateAlbum sc c w).1 = .responded ⟨500, .H "error" "failed to create album"⟩ := by
  simp only [Store.CreateAlbum, hb, Table.AddRecords]
  simp only [fieldsOfAlbum] at hfail
  generalize s.table.addRecords _ w.backend = r at hfail ⊢
  obtain ⟨⟨recs, err⟩, st1⟩ := r
  rcases hfail with he | ⟨he, recs0, hr, hnil⟩
  · cases err with
    | none => exact absurd rfl he
    | some e => simp [StatusInternalServerError]
  · simp only at he hr
    subst he
    subst hr
    simp [hnil, StatusInternalServerError]

/-- C7 (ground instances): two backends that fail with different error texts,
one of them returning a list next to the error, give the same answer. -/
theorem CreateAlbum_failure_witness :
    ((NewStore (cannedTable none none (some "rate limited"))).CreateAlbum groundStrconv
        (ctxOk "" ⟨"1", "Jeru", "Gerry Mulligan", float64OfInt 17⟩) (Conn.fresh ())).1
      = .responded ⟨500, .H "error" "failed to create album"⟩ ∧
    ((NewStore (cannedTable (some ⟨[none]⟩) none (some "unauthorized"))).CreateAlbum groundStrconv
        (ctxOk "" ⟨"1", "Jeru", "Gerry Mulligan", float64OfInt 17⟩) (Conn.fresh ())).1
      = .responded ⟨500, .H "error" "failed to create album"⟩ :=
  ⟨CreateAlbum_failure groundStrconv (NewStore (cannedTable none none (some "rate limited")))
      (ctxOk "" ⟨"1", "Jeru", "Gerry Mulligan", float64OfInt 17⟩) (Conn.fresh ()) _ rfl
      (Or.inl (by decide)),
   CreateAlbum_failure groundStrconv (NewStore (cannedTable (some ⟨[none]⟩) none (some "unauthorized")))
      (ctxOk "" ⟨"1", "Jeru", "Gerry Mulligan", float64OfInt 17⟩) (Conn.fresh ()) _ rfl
      (Or.inl (by decide))⟩

/-- C8. For a decoded album `a`, when the create call returns no error and a
record list whose first element is the record `r0`, `CreateAlbum` answers 201
with the record mapping of the fields of `r0`; the answer is a function of
those fields alone (neither `a` nor the later records `rest` occur in it). -/
theorem CreateAlbum_created {σ : Type} (sc : Strconv) (s : Store σ) (c : Context)
    (w : Conn σ) (a : album) (r0 : Record) (rest : List (Option Record)) (st1 : σ)
    (hb : c.BindJSON = .ok a)
    (hadd : s.table.addRecords ⟨[some ⟨"", fieldsOfAlbum a⟩]⟩ w.backend
      = ((some ⟨some r0 :: rest⟩, none), st1)) :
    (s.CreateAlbum sc c w).1 = .responded ⟨201, .album (albumOfFields sc r0.Fields)⟩ := by
  simp only [fieldsOfAlbum] at hadd
  simp [Store.CreateAlbum, hb, Table.AddRecords, hadd, StatusCreated, albumOfFields]


/-- C8 (ground instance): the backend answers with two records whose first one
differs from the submitted album; the answer is that first record, mapped. -/
theorem CreateAlbum_created_witness :
    ((NewStore (cannedTable
        (some ⟨[some ⟨"recA", [("id", .string "9"), ("title", .string "JERU"), ("price", .int 18)]⟩,
          none]⟩) none none)).CreateAlbum groundStrconv
        (ctxOk "" ⟨"1", "Jeru", "Gerry Mulligan", float64OfInt 17⟩) (Conn.fresh ())).1
      = .responded ⟨201, .album ⟨"9", "JERU", "<nil>", float64OfInt 18⟩⟩ :=
  CreateAlbum_created groundStrconv _ (ctxOk "" ⟨"1", "Jeru", "Gerry Mulligan", float64OfInt 17⟩)
    (Conn.fresh ()) ⟨"1", "Jeru", "Gerry Mulligan", float64OfInt 17⟩
    ⟨"recA", [("id", .string "9"), ("title", .string "JERU"), ("price", .int 18)]⟩ [none] () rfl rfl

/-- C9. Round trip. The field mapping `CreateAlbum` sends for an album `A` is
`fieldsOfAlbum A`, and the record mapping takes it back to `A`. Hence, against
any backend that keeps created field mappings verbatim and finds a record by
the text in its `id` field, POST of `A` answers 201 with `A` and the following
GET of `A.ID` answers 200 with `A`. -/
theorem create_then_get_roundtrip {σ : Type} (sc : Strconv) (s : Store σ) (A : album)
    (c1 c2 : Context) (w : Conn σ) (hpres : s.table.PreservesIdField)
    (h1 : c1.BindJSON = .ok A) (h2 : c2.Param "id" = A.ID) :
    albumOfFields sc (fieldsOfAlbum A) = A ∧
    (s.CreateAlbum sc c1 w).2.calls
      = w.calls ++ [BackendCall.AddRecords ⟨[some ⟨"", fieldsOfAlbum A⟩]⟩] ∧
    (s.CreateAlbum sc c1 w).1 = .responded ⟨201, .album A⟩ ∧
    (s.GetAlbumByID sc c2 (s.CreateAlbum sc c1 w).2).1 = .responded ⟨200, .album A⟩ := by
  have hmap : ∀ f : Fields, f = fieldsOfAlbum A → albumOfFields sc f = A := by
    intro f hf
    subst hf
    rfl
  obtain ⟨created, found, st1, st2, hadd, hcf, hget, hff⟩ :=
    hpres w.backend ⟨"", fieldsOfAlbum A⟩ A.ID rfl
  simp only [fieldsOfAlbum] at hadd
  refine ⟨hmap _ rfl, ?_, ?_, ?_⟩
  · simp [Store.CreateAlbum, h1, Table.AddRecords, hadd, fieldsOfAlbum]
  · have := hmap created.Fields hcf
    simp only [albumOfFields] at this
    simp [Store.CreateAlbum, h1, Table.AddRecords, hadd, StatusCreated, this]
  · have := hmap found.Fields hff
    simp only [albumOfFields] at this
    simp [Store.CreateAlbum, h1, Table.AddRecords, hadd, Store.GetAlbumByID, Table.GetRecord,
      h2, hget, StatusOK, this]

/-- C9 (ground instance): against the in-memory table that already holds
another album, POST then GET returns the submitted album. -/
theorem create_then_get_roundtrip_witness :
    ((NewStore memTable).GetAlbumByID groundStrconv
        (ctxOk "2" ⟨"", "", "", Float64.zero⟩)
        ((NewStore memTable).CreateAlbum groundStrconv
          (ctxOk "" ⟨"2", "Jeru", "Gerry Mulligan", float64OfInt 17⟩)
          (Conn.fresh [⟨"rec0", [("id", .string "1"), ("title", .string "Blue Train")]⟩])).2).1
      = .responded ⟨200, .album ⟨"2", "Jeru", "Gerry Mulligan", float64OfInt 17⟩⟩ :=
  (create_then_get_roundtrip groundStrconv (NewStore memTable)
    ⟨"2", "Jeru", "Gerry Mulligan", float64OfInt 17⟩
    (ctxOk "" ⟨"2", "Jeru", "Gerry Mulligan", float64OfInt 17⟩)
    (ctxOk "2" ⟨"", "", "", Float64.zero⟩)
    (Conn.fresh [⟨"rec0", [("id", .string "1"), ("title", .string "Blue Train")]⟩])
    memTable_preservesIdField rfl rfl).2.2.2

/-- C10 (counterexample). A POST whose body does not decode is answered
without any backend call: the call log stays empty. -/
theorem one_backend_call_counterexample :
    ((NewStore memTable).CreateAlbum groundStrconv (ctxBad "EOF") (Conn.fresh [])).1
      = .responded ⟨400, .H "error" "EOF"⟩ ∧
    ((NewStore memTable).CreateAlbum groundStrconv (ctxBad "EOF")
      (Conn.fresh [])).2.calls.length = 0 := by
  constructor <;> rfl

/-- C10 (amended). `ListAlbums` and `GetAlbumByID` log exactly one backend call
on every request and every backend outcome; `CreateAlbum` logs exactly one when
the body decodes and none when it does not. No handler logs more than one. -/
theorem backend_calls_per_request {σ : Type} (sc : Strconv) (s : Store σ) (c : Context)
    (w : Conn σ) :
    (s.ListAlbums sc c w).2.calls = w.calls ++ [BackendCall.GetRecords] ∧
    (s.GetAlbumByID sc c w).2.calls = w.calls ++ [BackendCall.GetRecord (c.Param "id")] ∧
    (∀ a, c.BindJSON = .ok a → (s.CreateAlbum sc c w).2.calls
      = w.calls ++ [BackendCall.AddRecords ⟨[some ⟨"", fieldsOfAlbum a⟩]⟩]) ∧
    (∀ msg, c.BindJSON = .error msg → (s.CreateAlbum sc c w).2.calls = w.calls) ∧
    (s.ListAlbums sc c w).2.calls.length = w.calls.length + 1 ∧
    (s.GetAlbumByID sc c w).2.calls.length = w.calls.length + 1 ∧
    (s.CreateAlbum sc c w).2.calls.length ≤ w.calls.length + 1 := by
  have hL : (s.ListAlbums sc c w).2.calls = w.calls ++ [BackendCall.GetRecords] := by
    simp only [Store.ListAlbums, Table.GetRecords]
    generalize s.table.getRecords w.backend = r
    obtain ⟨⟨recs, err⟩, st1⟩ := r
    cases err with
    | some e => rfl
    | none =>
      cases recs with
      | none => rfl
      | some recs =>
        simp only
        cases ListAlbums.loop sc recs.Records [] <;> rfl
  have hG : (s.GetAlbumByID sc c w).2.calls
      = w.calls ++ [BackendCall.GetRecord (c.Param "id")] := by
    simp only [Store.GetAlbumByID, Table.GetRecord]
    generalize s.table.getRecord (c.Param "id") w.backend = r
    obtain ⟨⟨rec, err⟩, st1⟩ := r
    cases err with
    | some e => rfl
    | none => cases rec <;> rfl
  have hC : ∀ a, c.BindJSON = .ok a → (s.CreateAlbum sc c w).2.calls
      = w.calls ++ [BackendCall.AddRecords ⟨[some ⟨"", fieldsOfAlbum a⟩]⟩] := by
    intro a ha
    simp only [Store.CreateAlbum, ha, Table.AddRecords, fieldsOfAlbum]
    generalize s.table.addRecords _ w.backend = r
    obtain ⟨⟨recs, err⟩, st1⟩ := r
    cases err with
    | some e => rfl
    | none =>
      cases recs with
      | none => rfl
      | some recs =>
        obtain ⟨l⟩ := recs
        cases l with
        | nil => rfl
        | cons r0 rest => cases r0 <;> rfl
  have hE : ∀ msg, c.BindJSON = .error msg → (s.CreateAlbum sc c w).2.calls = w.calls := by
    intro msg hm
    simp [Store.CreateAlbum, hm]
  refine ⟨hL, hG, hC, hE, by simp [hL], by simp [hG], ?_⟩
  cases hb : c.BindJSON with
  | error msg => simp [hE msg hb]
  | ok a => simp [hC a hb]

/-- C10 (ground instances): one logged call for a list, a get and a decodable
create against a backend that is down. -/
theorem backend_calls_per_request_witness :
    ((NewStore (cannedTable none none (some "timeout"))).ListAlbums groundStrconv
        (ctxOk "3" ⟨"3", "", "", Float64.zero⟩) (Conn.fresh ())).2.calls.length = 1 ∧
    ((NewStore (cannedTable none none (some "timeout"))).GetAlbumByID groundStrconv
        (ctxOk "3" ⟨"3", "", "", Float64.zero⟩) (Conn.fresh ())).2.calls.length = 1 ∧
    ((NewStore (cannedTable none none (some "timeout"))).CreateAlbum groundStrconv
        (ctxOk "3" ⟨"3", "", "", Float64.zero⟩) (Conn.fresh ())).2.calls.length ≤ 1 :=
  ⟨(backend_calls_per_request groundStrconv (NewStore (cannedTable none none (some "timeout")))
      (ctxOk "3" ⟨"3", "", "", Float64.zero⟩) (Conn.fresh ())).2.2.2.2.1,
   (backend_calls_per_request groundStrconv (NewStore (cannedTable none none (some "timeout")))
      (ctxOk "3" ⟨"3", "", "", Float64.zero⟩) (Conn.fresh ())).2.2.2.2.2.1,
   (backend_calls_per_request groundStrconv (NewStore (cannedTable none none (some "timeout")))
      (ctxOk "3" ⟨"3", "", "", Float64.zero⟩) (Conn.fresh ())).2.2.2.2.2.2⟩

end Main
